import Mathlib

/-!
Shallow embedding of the real-time chat backend (src/storage.ts, src/routes.ts).

Conventions of the embedding:
* JavaScript `Map` objects are association lists in insertion order; `Map.set`
  replaces in place when the key is present and appends otherwise, `Map.get`
  returns the first (unique) binding.
* Timestamps (`new Date()`) are naturals (milliseconds); every operation that
  reads the clock takes the current time `now` as an explicit parameter.
* `null`/`undefined` fields are `Option`; the JS `??` operator is `Option.getD`.
* The ballot key `` `${userId}-${voteId}` `` of storage.ts is modelled as the
  pair `(userId, voteId)`: on natural-number ids the decimal renderings contain
  no dash, so the string key is in bijection with the pair.
* Fallible operations (`throw new Error`) return `Except String`.
-/

namespace CdlChat

/-- `Map.get` on an association list (first binding wins). -/
def lookupA {κ α : Type} [BEq κ] (l : List (κ × α)) (k : κ) : Option α :=
  (l.find? (fun e => e.1 == k)).map (fun e => e.2)

/-- `Map.set` on an association list: replace in place, else append. -/
def setA {κ α : Type} [BEq κ] : List (κ × α) → κ → α → List (κ × α)
  | [], k, v => [(k, v)]
  | (k', v') :: t, k, v =>
    if k' == k then (k, v) :: t else (k', v') :: setA t k v

/-- `Map.delete` on an association list. -/
def eraseA {κ α : Type} [BEq κ] (l : List (κ × α)) (k : κ) : List (κ × α) :=
  l.filter (fun e => !(e.1 == k))

/-- The reserved access code that bridges with the full-account partition
(string literal `"3.4.12"` in the source). -/
def reservedCode : String := "3.4.12"

/-- The error text of `createMessage`'s identity-lookup failure. -/
def userNotFoundMsg : String := "User not found"

/-- A user record (table `users` of schema.ts, as stored by MemStorage). -/
structure User where
  id : Nat
  username : String
  email : String
  passwordHash : Option String
  firstName : Option String
  lastName : Option String
  accountType : String
  accessCode : Option String
  rank : Nat
  isOnline : Bool
  joinedAt : Nat
deriving DecidableEq, Repr

/-- Argument of `createUser` (type `CreateUser` of schema.ts; optional
fields are `Option`). -/
structure CreateUser where
  username : String
  email : String
  passwordHash : Option String
  firstName : Option String
  lastName : Option String
  accountType : Option String
  accessCode : Option String
  rank : Option Nat
deriving DecidableEq, Repr

/-- A stored message joined with its author snapshot (`MessageWithUser`). -/
structure MessageWithUser where
  id : Nat
  userId : Nat
  content : String
  createdAt : Nat
  user : User
deriving DecidableEq, Repr

/-- An active vote proposal (table `activeVotes`). -/
structure ActiveVote where
  id : Nat
  title : String
  description : String
  proposedBy : Nat
  yesVotes : Nat
  noVotes : Nat
  totalVotesNeeded : Nat
  endsAt : Nat
  createdAt : Nat
deriving DecidableEq, Repr

/-- Argument of `createActiveVote` (`InsertActiveVote` of schema.ts). -/
structure InsertActiveVote where
  title : String
  description : String
  proposedBy : Nat
  endsAt : Nat
deriving DecidableEq, Repr

/-- A ballot choice (the TS union type `"yes" | "no"`). -/
inductive Vote where
  | yes
  | no
deriving DecidableEq, Repr

/-- A recorded ballot (value stored in `activeVoteUsers`). -/
structure Ballot where
  userId : Nat
  voteId : Nat
  vote : Vote
deriving DecidableEq, Repr

/-- The in-memory store `MemStorage` of storage.ts.  The `laws` and
`accessCodes` tables and their id counters are omitted: no claim reads or
writes them and no retained operation touches the fields modelled here
through them. -/
structure MemStorage where
  users : List (Nat × User)
  messages : List (Nat × MessageWithUser)
  activeVotes : List (Nat × ActiveVote)
  activeVoteUsers : List ((Nat × Nat) × Ballot)
  currentUserId : Nat
  currentMessageId : Nat
  currentVoteId : Nat
deriving DecidableEq, Repr

/-- The sample active vote seeded by `initializeDefaultData` (storage.ts
lines 101-113): yesVotes 8, noVotes 4, and no matching ballots. -/
def sampleVote (now : Nat) : ActiveVote :=
  { id := 1
    title := "Chat History Retention"
    description := "Implement automatic chat history retention of 90 days for all messages, with option for users to export their message history."
    proposedBy := 1
    yesVotes := 8
    noVotes := 4
    totalVotesNeeded := 20
    endsAt := now + 3 * 24 * 60 * 60 * 1000
    createdAt := now }

/-- The store as built by the `MemStorage` constructor plus
`initializeDefaultData`, restricted to the modelled tables.  The sample
vote consumes id 1, so `currentVoteId` is 2 afterwards. -/
def initialStorage (now : Nat) : MemStorage :=
  { users := []
    messages := []
    activeVotes := [(1, sampleVote now)]
    activeVoteUsers := []
    currentUserId := 1
    currentMessageId := 1
    currentVoteId := 2 }

/-- `MemStorage.getUser`. -/
def getUser (st : MemStorage) (id : Nat) : Option User :=
  lookupA st.users id

/-- `MemStorage.createUser` (storage.ts lines 152-171).  The very first
user (empty `users` map) gets rank 0; otherwise the requested rank or 10
(`insertUser.rank ?? 10`).  `joinedAt` is `new Date()`, passed as `now`. -/
def createUser (st : MemStorage) (now : Nat) (cu : CreateUser) : User × MemStorage :=
  let id := st.currentUserId
  let rank := if st.users.isEmpty then 0 else cu.rank.getD 10
  let user : User :=
    { id
      username := cu.username
      email := cu.email
      passwordHash := cu.passwordHash
      firstName := cu.firstName
      lastName := cu.lastName
      accountType := cu.accountType.getD "full"
      accessCode := cu.accessCode
      rank
      isOnline := true
      joinedAt := now }
  (user, { st with users := setA st.users id user, currentUserId := id + 1 })

/-- `MemStorage.updateUserRank`. -/
def updateUserRank (st : MemStorage) (userId newRank : Nat) : Option User × MemStorage :=
  match lookupA st.users userId with
  | none => (none, st)
  | some u =>
    let u' := { u with rank := newRank }
    (some u', { st with users := setA st.users userId u' })

/-- `MemStorage.updateUserAccessCode` (sets the code without touching
`accountType`). -/
def updateUserAccessCode (st : MemStorage) (userId : Nat) (code : String) :
    Option User × MemStorage :=
  match lookupA st.users userId with
  | none => (none, st)
  | some u =>
    let u' := { u with accessCode := some code }
    (some u', { st with users := setA st.users userId u' })

/-- `MemStorage.setUserOnlineStatus`. -/
def setUserOnlineStatus (st : MemStorage) (userId : Nat) (isOnline : Bool) : MemStorage :=
  match lookupA st.users userId with
  | none => st
  | some u => { st with users := setA st.users userId { u with isOnline := isOnline } }

/-- The filter predicate of `MemStorage.getOnlineUsersByAccessCode`
(storage.ts lines 207-226), applied to each stored user with the
requesting user's access code (`null` for full accounts). -/
def onlineFilterPred (accessCode : Option String) (u : User) : Bool :=
  if !u.isOnline then false
  else if accessCode = none then
    u.accountType == "full" || (u.accountType == "code" && u.accessCode == some reservedCode)
  else if accessCode = some reservedCode then
    u.accountType == "full" || (u.accountType == "code" && u.accessCode == some reservedCode)
  else
    u.accountType == "code" && u.accessCode == accessCode

/-- `MemStorage.getOnlineUsersByAccessCode`. -/
def getOnlineUsersByAccessCode (st : MemStorage) (accessCode : Option String) : List User :=
  (st.users.map (fun e => e.2)).filter (onlineFilterPred accessCode)

/-- The message retention window: 7 days in milliseconds. -/
def retentionMs : Nat := 7 * 24 * 60 * 60 * 1000

/-- `MemStorage.cleanupOldMessages` (storage.ts lines 279-296): delete every
stored message with `createdAt < sevenDaysAgo`; keeping the complement is the
same net effect as collecting ids and deleting them. -/
def cleanupOldMessages (st : MemStorage) (now : Nat) : MemStorage :=
  { st with
    messages := st.messages.filter (fun e => !decide (e.2.createdAt < now - retentionMs)) }

/-- `MemStorage.createMessage` (storage.ts lines 255-276): resolve the author
(throwing when absent), run the purge sweep, then append the message with a
fresh id and the current timestamp. -/
def createMessage (st : MemStorage) (now userId : Nat) (content : String) :
    Except String (MessageWithUser × MemStorage) :=
  match lookupA st.users userId with
  | none => .error userNotFoundMsg
  | some user =>
    let st1 := cleanupOldMessages st now
    let id := st1.currentMessageId
    let msg : MessageWithUser := { id, userId, content, createdAt := now, user }
    .ok (msg, { st1 with messages := setA st1.messages id msg, currentMessageId := id + 1 })

/-- Stable insertion into a list ascending in `createdAt`: an embedding of
JS `Array.prototype.sort` with comparator `(a, b) => a.createdAt - b.createdAt`
(stable per the ECMAScript spec). -/
def insertByCreatedAt (m : MessageWithUser) : List MessageWithUser → List MessageWithUser
  | [] => [m]
  | x :: t => if x.createdAt ≤ m.createdAt then x :: insertByCreatedAt m t else m :: x :: t

/-- Stable sort ascending in `createdAt`. -/
def sortByCreatedAt : List MessageWithUser → List MessageWithUser
  | [] => []
  | x :: t => insertByCreatedAt x (sortByCreatedAt t)

/-- `Array.prototype.slice(-limit)`: the last `limit` elements. -/
def lastN {α : Type} (limit : Nat) (l : List α) : List α :=
  l.drop (l.length - limit)

/-- `MemStorage.getRecentMessages` (storage.ts lines 309-314). -/
def getRecentMessages (st : MemStorage) (limit : Nat) : List MessageWithUser :=
  lastN limit (sortByCreatedAt (st.messages.map (fun e => e.2)))

/-- The filter predicate of `MemStorage.getRecentMessagesByAccessCode`
(storage.ts lines 320-337), applied to each stored message's author. -/
def messageFilterPred (accessCode : Option String) (m : MessageWithUser) : Bool :=
  let mu := m.user
  if accessCode = none then
    mu.accountType == "full" || (mu.accountType == "code" && mu.accessCode == some reservedCode)
  else if accessCode = some reservedCode then
    mu.accountType == "full" || (mu.accountType == "code" && mu.accessCode == some reservedCode)
  else
    mu.accountType == "code" && mu.accessCode == accessCode

/-- `MemStorage.getRecentMessagesByAccessCode` (storage.ts lines 316-342). -/
def getRecentMessagesByAccessCode (st : MemStorage) (accessCode : Option String)
    (limit : Nat) : List MessageWithUser :=
  lastN limit (sortByCreatedAt ((st.messages.map (fun e => e.2)).filter (messageFilterPred accessCode)))

/-- `MemStorage.createActiveVote` (storage.ts lines 368-380): fresh id,
counters start at 0. -/
def createActiveVote (st : MemStorage) (now : Nat) (iv : InsertActiveVote) :
    ActiveVote × MemStorage :=
  let id := st.currentVoteId
  let vote : ActiveVote :=
    { id
      title := iv.title
      description := iv.description
      proposedBy := iv.proposedBy
      yesVotes := 0
      noVotes := 0
      totalVotesNeeded := 20
      endsAt := iv.endsAt
      createdAt := now }
  (vote, { st with activeVotes := setA st.activeVotes id vote, currentVoteId := id + 1 })

/-- `MemStorage.castVote` (storage.ts lines 382-401): reject a duplicate
ballot key with no mutation; otherwise record the ballot and, when the
proposal exists, increment the chosen counter. -/
def castVote (st : MemStorage) (userId voteId : Nat) (v : Vote) : Bool × MemStorage :=
  let key := (userId, voteId)
  if (lookupA st.activeVoteUsers key).isSome then
    (false, st)
  else
    let st1 := { st with
      activeVoteUsers := setA st.activeVoteUsers key { userId, voteId, vote := v } }
    match lookupA st1.activeVotes voteId with
    | some av =>
      let av' := { av with
        yesVotes := if v = Vote.yes then av.yesVotes + 1 else av.yesVotes
        noVotes := if v = Vote.no then av.noVotes + 1 else av.noVotes }
      (true, { st1 with activeVotes := setA st1.activeVotes voteId av' })
    | none => (true, st1)

/-- `MemStorage.hasUserVoted`. -/
def hasUserVoted (st : MemStorage) (userId voteId : Nat) : Bool :=
  (lookupA st.activeVoteUsers (userId, voteId)).isSome

/-- `MemStorage.getVoteResults` (storage.ts lines 408-417), as
`(yes, no, total)`. -/
def getVoteResults (st : MemStorage) (voteId : Nat) : Nat × Nat × Nat :=
  match lookupA st.activeVotes voteId with
  | none => (0, 0, 0)
  | some av => (av.yesVotes, av.noVotes, av.yesVotes + av.noVotes)

/-- Number of ballots recorded for a given proposal (entries of
`activeVoteUsers` whose `voteId` matches; keys are unique, so this counts
distinct ballots). -/
def ballotCount (st : MemStorage) (voteId : Nat) : Nat :=
  (st.activeVoteUsers.filter (fun e => e.2.voteId == voteId)).length

/-- `yesVotes + noVotes` of a proposal, 0 when absent. -/
def voteSum (st : MemStorage) (voteId : Nat) : Nat :=
  match lookupA st.activeVotes voteId with
  | none => 0
  | some av => av.yesVotes + av.noVotes

/-!  The routes layer (src/routes.ts). -/

/-- The partition of a user, as computed at every call site of routes.ts:
`user.accountType === "full" ? null : user.accessCode`. -/
def clientPartition (u : User) : Option String :=
  if u.accountType = "full" then none else u.accessCode

/-- A live WebSocket connection as seen by the registry
(`AuthenticatedWebSocket`): whether `readyState === WebSocket.OPEN`, the
attached user snapshot (`ws.user`, absent before authentication), and
whether the underlying transport write would succeed.  `ws.send` on an OPEN
socket reports failures asynchronously and never throws into the
broadcasting loop, so `sendOk` does not influence control flow. -/
structure Client where
  openConn : Bool
  user : Option User
  sendOk : Bool
deriving DecidableEq, Repr

/-- `userId !== excludeUserId` — vacuously true when no exclusion is given. -/
def notExcluded (exclude : Option Nat) (userId : Nat) : Bool :=
  match exclude with
  | none => true
  | some e => userId != e

/-- The per-client receive decision of `broadcastToAccessCode`
(routes.ts lines 70-82), given the sender's access code. -/
def shouldReceive (senderAC : Option String) (u : User) : Bool :=
  if clientPartition u = none then
    senderAC == none || senderAC == some reservedCode
  else if clientPartition u = some reservedCode then
    senderAC == none || senderAC == some reservedCode
  else
    clientPartition u == senderAC

/-- Whether one registry entry is sent the event by `broadcastToAccessCode`
(routes.ts line 64 guard plus the `shouldReceive` computation). -/
def eligibleClient (senderAC : Option String) (exclude : Option Nat)
    (e : Nat × Client) : Bool :=
  e.2.openConn && notExcluded exclude e.1 &&
    (match e.2.user with
     | some u => shouldReceive senderAC u
     | none => false)

/-- `broadcastToAccessCode` (routes.ts lines 61-89): iterate the registry and
send to each eligible entry.  Returns the ids sent to and the registry after
the call — the loop body contains no `try`/`catch` and no registry mutation,
so the registry is returned unchanged and every eligible entry is attempted
regardless of the transport health of the others. -/
def broadcastToAccessCode (clients : List (Nat × Client)) (senderAC : Option String)
    (exclude : Option Nat) : List Nat × List (Nat × Client) :=
  ((clients.filter (eligibleClient senderAC exclude)).map (fun e => e.1), clients)

/-- The unfiltered `broadcast` (routes.ts lines 51-58), used for vote events. -/
def broadcastAll (clients : List (Nat × Client)) (exclude : Option Nat) : List Nat :=
  (clients.filter (fun e => e.2.openConn && notExcluded exclude e.1)).map (fun e => e.1)

/-- The visibility predicate as the spec words it: `a == b`, or both `a` and
`b` lie in `{null, "3.4.12"}`. -/
def specVisible (a b : Option String) : Prop :=
  a = b ∨ ((a = none ∨ a = some reservedCode) ∧ (b = none ∨ b = some reservedCode))

instance (a b : Option String) : Decidable (specVisible a b) := by
  unfold specVisible; infer_instance

/-- Outcome of `POST /api/votes/cast` (routes.ts lines 676-714). -/
inductive CastOutcome where
  | userNotFound
  | notEligible
  | alreadyVotedErr
  | castFailedErr
  | castOk (yes no total : Nat)
deriving DecidableEq, Repr

/-- `POST /api/votes/cast` (routes.ts lines 676-714): resolve the user,
check voting eligibility, reject a duplicate ballot, then cast and report
the recomputed results.  (The subsequent global broadcast does not touch
the storage state.) -/
def castVoteRoute (st : MemStorage) (userId voteId : Nat) (v : Vote) :
    CastOutcome × MemStorage :=
  match lookupA st.users userId with
  | none => (.userNotFound, st)
  | some user =>
    if user.accountType = "code" ∧ user.accessCode ≠ some reservedCode then
      (.notEligible, st)
    else if hasUserVoted st userId voteId then
      (.alreadyVotedErr, st)
    else
      match castVote st userId voteId v with
      | (false, st') => (.castFailedErr, st')
      | (true, st') =>
        let r := getVoteResults st' voteId
        (.castOk r.1 r.2.1 r.2.2, st')

/-- Outcome of `POST /api/votes` (routes.ts lines 643-673). -/
inductive ProposeOutcome where
  | userNotFound
  | notEligible
  | created (v : ActiveVote)
deriving DecidableEq, Repr

/-- `POST /api/votes` (routes.ts lines 643-673): resolve the proposing user,
check proposal eligibility (same rule as voting), then create the proposal. -/
def createVoteRoute (st : MemStorage) (now : Nat) (iv : InsertActiveVote) :
    ProposeOutcome × MemStorage :=
  match lookupA st.users iv.proposedBy with
  | none => (.userNotFound, st)
  | some user =>
    if user.accountType = "code" ∧ user.accessCode ≠ some reservedCode then
      (.notEligible, st)
    else
      let r := createActiveVote st now iv
      (.created r.1, r.2)

/-- JS `String.prototype.trim`: strip whitespace from both ends (an
executable embedding; Lean's own `String.trim` does not reduce in the
kernel). -/
def strTrim (s : String) : String :=
  ⟨((s.data.dropWhile Char.isWhitespace).reverse.dropWhile Char.isWhitespace).reverse⟩

/-- Outcome of `POST /api/messages` (routes.ts lines 581-620). -/
inductive MsgOutcome where
  | unauthorized
  | emptyContent
  | serverError
  | sent (m : MessageWithUser)
deriving DecidableEq, Repr

/-- `POST /api/messages` (routes.ts lines 581-620): require a session,
reject content that is empty after trimming, store the trimmed message, and
broadcast it to the author's partition.  Returns the outcome, the storage
state, and the ids the event was sent to. -/
def postMessagesRoute (st : MemStorage) (clients : List (Nat × Client)) (now : Nat)
    (sessionUserId : Option Nat) (content : String) :
    MsgOutcome × MemStorage × List Nat :=
  match sessionUserId with
  | none => (.unauthorized, st, [])
  | some userId =>
    if strTrim content = "" then (.emptyContent, st, [])
    else
      match createMessage st now userId (strTrim content) with
      | .error _ => (.serverError, st, [])
      | .ok (msg, st') =>
        match lookupA st'.users userId with
        | some author =>
          (.sent msg, st', (broadcastToAccessCode clients (clientPartition author) none).1)
        | none => (.sent msg, st', [])

/-- The WebSocket `message` case (routes.ts lines 125-138): when the socket
is authenticated (`ws.userId && ws.user`), store the raw content — there is
no emptiness validation on this path — and broadcast to the cached user's
partition; a thrown error is caught and logged, leaving state unchanged and
broadcasting nothing. -/
def wsMessageRoute (st : MemStorage) (clients : List (Nat × Client)) (now : Nat)
    (wsUserId : Option Nat) (wsUser : Option User) (content : String) :
    MemStorage × List Nat :=
  match wsUserId, wsUser with
  | some userId, some u =>
    (match createMessage st now userId content with
     | .error _ => (st, [])
     | .ok (_, st') => (st', (broadcastToAccessCode clients (clientPartition u) none).1))
  | _, _ => (st, [])

/-!  Operations and reachable storage states. -/

/-- One storage-mutating operation of the system (every MemStorage method
that writes the modelled tables, with its clock reading made explicit). -/
inductive Op where
  | opCreateUser (now : Nat) (cu : CreateUser)
  | opUpdateRank (userId newRank : Nat)
  | opUpdateAccessCode (userId : Nat) (code : String)
  | opSetOnline (userId : Nat) (b : Bool)
  | opCreateMessage (now userId : Nat) (content : String)
  | opCleanup (now : Nat)
  | opCreateVote (now : Nat) (iv : InsertActiveVote)
  | opCastVote (userId voteId : Nat) (v : Vote)
deriving DecidableEq, Repr

/-- Apply one operation to the store (a failed `createMessage` throws
before mutating anything, so the state is unchanged). -/
def applyOp (st : MemStorage) : Op → MemStorage
  | .opCreateUser now cu => (createUser st now cu).2
  | .opUpdateRank userId newRank => (updateUserRank st userId newRank).2
  | .opUpdateAccessCode userId code => (updateUserAccessCode st userId code).2
  | .opSetOnline userId b => setUserOnlineStatus st userId b
  | .opCreateMessage now userId content =>
    match createMessage st now userId content with
    | .ok (_, st') => st'
    | .error _ => st
  | .opCleanup now => cleanupOldMessages st now
  | .opCreateVote now iv => (createActiveVote st now iv).2
  | .opCastVote userId voteId v => (castVote st userId voteId v).2

/-- Storage states reachable from the freshly initialized store. -/
inductive Reach : MemStorage → Prop
  | init (now : Nat) : Reach (initialStorage now)
  | step {st : MemStorage} (op : Op) : Reach st → Reach (applyOp st op)

/-- `st'` is obtained from `st` by zero or more operations. -/
def ReachFrom : MemStorage → MemStorage → Prop :=
  Relation.ReflTransGen (fun a b => ∃ op, b = applyOp a op)

/-!  Association-list lemmas. -/

theorem lookupA_cons {κ α : Type} [BEq κ] (ek : κ) (ev : α) (t : List (κ × α)) (k : κ) :
    lookupA ((ek, ev) :: t) k = if ek == k then some ev else lookupA t k := by
  simp only [lookupA, List.find?]
  cases h : ek == k <;> simp [h]

theorem lookupA_setA {κ α : Type} [BEq κ] [LawfulBEq κ] (l : List (κ × α)) (k k' : κ) (v : α) :
    lookupA (setA l k v) k' = if k == k' then some v else lookupA l k' := by
  induction l with
  | nil => exact lookupA_cons k v [] k'
  | cons e t ih =>
    obtain ⟨ek, ev⟩ := e
    cases hek : ek == k with
    | true =>
      have he' : ∀ x : κ, (ek == x) = (k == x) := fun x => by rw [eq_of_beq hek]
      simp only [setA, hek, if_true]
      rw [lookupA_cons, lookupA_cons, he']
      cases hkk : k == k' <;> simp [hkk]
    | false =>
      simp only [setA, hek, Bool.false_eq_true, if_false]
      rw [lookupA_cons, lookupA_cons]
      cases hekk : ek == k' with
      | true =>
        have hkk : (k == k') = false := by
          rw [← eq_of_beq hekk]
          cases hkk' : k == ek with
          | true => rw [eq_of_beq hkk'] at hek; simp at hek
          | false => rfl
        simp [hkk]
      | false => simp [ih]

theorem setA_of_lookupA_none {κ α : Type} [BEq κ] [LawfulBEq κ] (l : List (κ × α)) (k : κ) (v : α)
    (h : lookupA l k = none) : setA l k v = l ++ [(k, v)] := by
  induction l with
  | nil => simp [setA]
  | cons e t ih =>
    obtain ⟨ek, ev⟩ := e
    rw [lookupA_cons] at h
    cases hek : ek == k with
    | true => rw [hek] at h; simp at h
    | false =>
      rw [hek] at h
      simp only [Bool.false_eq_true, if_false] at h
      simp [setA, hek, ih h]

theorem lookupA_isSome_setA {κ α : Type} [BEq κ] [LawfulBEq κ] (l : List (κ × α)) (k k' : κ) (v : α)
    (h : (lookupA l k').isSome) : (lookupA (setA l k v) k').isSome := by
  rw [lookupA_setA]
  cases hk : k == k' <;> simp [h]

/-!  The partition classifier: the per-client decision of
`broadcastToAccessCode` agrees with the spec's visibility predicate. -/

theorem shouldReceive_iff (s : Option String) (u : User) :
    shouldReceive s u = true ↔ specVisible s (clientPartition u) := by
  simp only [shouldReceive]
  cases hp : clientPartition u with
  | none =>
    simp only [reduceIte, specVisible, Bool.or_eq_true, beq_iff_eq]
    tauto
  | some c =>
    have h1 : ¬(some c : Option String) = none := by simp
    by_cases hc : c = reservedCode
    · subst hc
      simp only [if_neg h1, eq_self_iff_true, if_true, specVisible, Bool.or_eq_true, beq_iff_eq]
      tauto
    · have h2 : ¬(some c : Option String) = some reservedCode := by simp [hc]
      simp only [if_neg h1, if_neg h2, specVisible, beq_iff_eq]
      constructor
      · intro h; exact Or.inl h.symm
      · rintro (h | ⟨h1', h2' | h2'⟩)
        · exact h.symm
        · exact absurd h2' (by simp)
        · exact absurd h2' h2

/-- C1: a broadcast with sender partition `s` is delivered to exactly those
registered connections that are OPEN, carry a user snapshot, differ from the
excluded id, and whose partition `p` satisfies `s = p` or
`{s, p} ⊆ {null, "3.4.12"}`; no other registry entry is sent the event. -/
theorem broadcast_delivers_exactly_visible_partition
    (clients : List (Nat × Client)) (s : Option String) (e : Option Nat) (id : Nat) :
    id ∈ (broadcastToAccessCode clients s e).1 ↔
      ∃ c : Client, (id, c) ∈ clients ∧ c.openConn = true ∧ notExcluded e id = true ∧
        ∃ u : User, c.user = some u ∧ specVisible s (clientPartition u) := by
  simp only [broadcastToAccessCode, List.mem_map, List.mem_filter]
  constructor
  · rintro ⟨⟨cid, c⟩, ⟨hmem, helig⟩, rfl⟩
    simp only [eligibleClient, Bool.and_eq_true] at helig
    obtain ⟨⟨ho, hn⟩, hm⟩ := helig
    cases hu : c.user with
    | none => rw [hu] at hm; exact absurd hm (by simp)
    | some u =>
      rw [hu] at hm
      exact ⟨c, hmem, ho, hn, u, hu, (shouldReceive_iff s u).mp hm⟩
  · rintro ⟨c, hmem, ho, hn, u, hu, hvis⟩
    refine ⟨(id, c), ⟨hmem, ?_⟩, rfl⟩
    simp only [eligibleClient, Bool.and_eq_true, hu]
    exact ⟨⟨ho, hn⟩, (shouldReceive_iff s u).mpr hvis⟩

theorem specVisible_symm (a b : Option String) : specVisible a b ↔ specVisible b a := by
  unfold specVisible
  constructor
  · rintro (h | ⟨h1, h2⟩)
    · exact Or.inl h.symm
    · exact Or.inr ⟨h2, h1⟩
  · rintro (h | ⟨h1, h2⟩)
    · exact Or.inl h.symm
    · exact Or.inr ⟨h2, h1⟩

/-- Sample full-account users and connection handles for concrete runs. -/
def uFullA : User :=
  { id := 1, username := "alice", email := "alice@x.test", passwordHash := some "h1"
    firstName := none, lastName := none, accountType := "full", accessCode := none
    rank := 0, isOnline := true, joinedAt := 0 }

def uFullB : User :=
  { id := 2, username := "ben", email := "ben@x.test", passwordHash := some "h2"
    firstName := none, lastName := none, accountType := "full", accessCode := none
    rank := 10, isOnline := true, joinedAt := 0 }

/-- A registered OPEN connection whose underlying socket write fails. -/
def failClient : Client := { openConn := true, user := some uFullA, sendOk := false }

/-- A registered OPEN connection whose socket write succeeds. -/
def okClient : Client := { openConn := true, user := some uFullB, sendOk := true }

def demoClients : List (Nat × Client) := [(1, failClient), (2, okClient)]

/-- C7 counterexample: after a broadcast in which connection 1's send fails,
connection 1 is still registered (it is NOT removed, contrary to the claim),
while the event was sent to both eligible connections. -/
theorem broadcast_does_not_evict_failed_connection :
    ¬(lookupA (broadcastToAccessCode demoClients none none).2 1 = none) ∧
      lookupA (broadcastToAccessCode demoClients none none).2 1 = some failClient ∧
      1 ∈ (broadcastToAccessCode demoClients none none).1 ∧
      2 ∈ (broadcastToAccessCode demoClients none none).1 := by
  refine ⟨by decide, by decide, by decide, by decide⟩

/-- C7 amended: the broadcast loop attempts delivery to every eligible
connection regardless of the transport health (`sendOk`) of any connection —
`ws.send` on an OPEN socket surfaces failures asynchronously, so one failed
write cannot abort the loop — and the connected-clients registry is returned
unchanged: a failed send does not evict the connection (eviction happens only
in the socket close handler). -/
theorem broadcast_failure_isolated_no_eviction
    (clients : List (Nat × Client)) (s : Option String) (e : Option Nat)
    (f : Nat → Bool) :
    (broadcastToAccessCode clients s e).2 = clients ∧
      (broadcastToAccessCode
        (clients.map (fun p => (p.1, { p.2 with sendOk := f p.1 }))) s e).1 =
        (broadcastToAccessCode clients s e).1 := by
  constructor
  · rfl
  · simp only [broadcastToAccessCode]
    induction clients with
    | nil => rfl
    | cons p t ih =>
      obtain ⟨pid, pc⟩ := p
      simp only [List.map_cons, List.filter_cons]
      have hsame : eligibleClient s e (pid, { pc with sendOk := f pid }) =
          eligibleClient s e (pid, pc) := rfl
      rw [hsame]
      cases eligibleClient s e (pid, pc) <;> simp_all

/-!  C2: visibility symmetry. -/

/-- The `createUser` argument of `POST /api/register` for a first user. -/
def cuAlice : CreateUser :=
  { username := "alice", email := "alice@x.test", passwordHash := some "h1"
    firstName := none, lastName := none, accountType := some "full"
    accessCode := none, rank := some 0 }

/-- The `createUser` argument of `POST /api/old-login` (routes.ts lines
415-422): a `"code"` account created with NO access code. -/
def cuLegacyBob : CreateUser :=
  { username := "bob", email := "bob@legacy.local", passwordHash := none
    firstName := none, lastName := none, accountType := some "code"
    accessCode := none, rank := some 10 }

def stRegOne : MemStorage := (createUser (initialStorage 0) 0 cuAlice).2

def aliceUser : User := (createUser (initialStorage 0) 0 cuAlice).1

def stRegTwo : MemStorage := (createUser stRegOne 1 cuLegacyBob).2

def bobUser : User := (createUser stRegOne 1 cuLegacyBob).1

/-- C2 counterexample: with alice a full account and bob a code account
created by the legacy login (access code `null`), both online, alice IS in
the visible peer set computed for bob, but bob is NOT in the visible peer
set computed for alice — `getOnlineUsersByAccessCode` visibility is not
symmetric. -/
theorem online_visibility_not_symmetric :
    aliceUser ∈ getOnlineUsersByAccessCode stRegTwo (clientPartition bobUser) ∧
      bobUser ∉ getOnlineUsersByAccessCode stRegTwo (clientPartition aliceUser) := by
  refine ⟨by decide, by decide⟩

theorem onlineFilterPred_symm (a b : User)
    (ha : a.accountType = "full" ∨ a.accountType = "code")
    (hb : b.accountType = "full" ∨ b.accountType = "code")
    (ha' : a.accountType = "code" → a.accessCode ≠ none)
    (hb' : b.accountType = "code" → b.accessCode ≠ none)
    (hoa : a.isOnline = true) (hob : b.isOnline = true) :
    onlineFilterPred (clientPartition a) b = onlineFilterPred (clientPartition b) a := by
  rcases ha with ha | ha <;> rcases hb with hb | hb
  · simp [onlineFilterPred, clientPartition, ha, hb, hoa, hob]
  · obtain ⟨cb, hcb⟩ := Option.ne_none_iff_exists'.mp (hb' hb)
    by_cases hr : cb = reservedCode <;>
      simp [onlineFilterPred, clientPartition, ha, hb, hoa, hob, hcb, hr]
  · obtain ⟨ca, hca⟩ := Option.ne_none_iff_exists'.mp (ha' ha)
    by_cases hr : ca = reservedCode <;>
      simp [onlineFilterPred, clientPartition, ha, hb, hoa, hob, hca, hr]
  · obtain ⟨ca, hca⟩ := Option.ne_none_iff_exists'.mp (ha' ha)
    obtain ⟨cb, hcb⟩ := Option.ne_none_iff_exists'.mp (hb' hb)
    have hpa : clientPartition a = some ca := by simp [clientPartition, ha, hca]
    have hpb : clientPartition b = some cb := by simp [clientPartition, hb, hcb]
    rw [hpa, hpb]
    by_cases hra : ca = reservedCode <;> by_cases hrb : cb = reservedCode
    · subst hra; subst hrb
      simp [onlineFilterPred, hoa, hob, ha, hb, hca, hcb]
    · subst hra
      simp [onlineFilterPred, hoa, hob, ha, hb, hca, hcb, hrb, Ne.symm hrb]
    · subst hrb
      simp [onlineFilterPred, hoa, hob, ha, hb, hca, hcb, hra, Ne.symm hra]
    · by_cases hab : ca = cb
      · subst hab
        simp [onlineFilterPred, hoa, hob, ha, hb, hca, hcb, hra]
      · simp [onlineFilterPred, hoa, hob, ha, hb, hca, hcb, hra, hrb, hab, Ne.symm hab]

/-- C2 corrected: broadcast-receive visibility is symmetric for every pair of
users (first conjunct); peer-set visibility via `getOnlineUsersByAccessCode`
is symmetric provided both users are well-formed — account type `"full"` or
`"code"`, and code accounts carry a non-null access code (second conjunct,
with both users stored and online).  Without the non-null proviso symmetry
fails (see the counterexample). -/
theorem visibility_symmetric_for_wellformed_users
    (st : MemStorage) (a b : User) (ka kb : Nat) :
    shouldReceive (clientPartition a) b = shouldReceive (clientPartition b) a ∧
    ((ka, a) ∈ st.users → (kb, b) ∈ st.users →
      (a.accountType = "full" ∨ a.accountType = "code") →
      (b.accountType = "full" ∨ b.accountType = "code") →
      (a.accountType = "code" → a.accessCode ≠ none) →
      (b.accountType = "code" → b.accessCode ≠ none) →
      a.isOnline = true → b.isOnline = true →
      (b ∈ getOnlineUsersByAccessCode st (clientPartition a) ↔
        a ∈ getOnlineUsersByAccessCode st (clientPartition b))) := by
  constructor
  · rw [Bool.eq_iff_iff, shouldReceive_iff, shouldReceive_iff]
    exact specVisible_symm _ _
  · intro hma hmb ha hb ha' hb' hoa hob
    have hsym := onlineFilterPred_symm a b ha hb ha' hb' hoa hob
    simp only [getOnlineUsersByAccessCode, List.mem_filter, List.mem_map]
    constructor
    · rintro ⟨-, hpred⟩
      exact ⟨⟨(ka, a), hma, rfl⟩, by rw [← hsym]; exact hpred⟩
    · rintro ⟨-, hpred⟩
      exact ⟨⟨(kb, b), hmb, rfl⟩, by rw [hsym]; exact hpred⟩

/-- A `"code"` account that used the reserved access code. -/
def cuCarol : CreateUser :=
  { username := "carol", email := "carol@x.test", passwordHash := none
    firstName := some "carol", lastName := none, accountType := some "code"
    accessCode := some reservedCode, rank := some 10 }

def stRegThree : MemStorage := (createUser stRegTwo 2 cuCarol).2

def carolUser : User := (createUser stRegTwo 2 cuCarol).1

/-- C2 witness: for the well-formed pair alice (full) and carol (code,
reserved channel), both stored and online, peer-set visibility is symmetric. -/
theorem visibility_symmetric_witness :
    carolUser ∈ getOnlineUsersByAccessCode stRegThree (clientPartition aliceUser) ↔
      aliceUser ∈ getOnlineUsersByAccessCode stRegThree (clientPartition carolUser) :=
  (visibility_symmetric_for_wellformed_users stRegThree aliceUser carolUser 1 3).2
    (by decide) (by decide) (by decide) (by decide) (by decide) (by decide)
    (by decide) (by decide)

/-!  C8: voting/proposing eligibility. -/

/-- C8: a cast-vote request or a create-proposal request is rejected with the
eligibility error exactly when the resolved user has account type `"code"`
and an access code different from `"3.4.12"`; full accounts and reserved-code
users are never rejected on eligibility grounds. -/
theorem vote_endpoints_reject_iff_ineligible
    (st : MemStorage) (userId voteId : Nat) (v : Vote) (now : Nat)
    (iv : InsertActiveVote) :
    ((castVoteRoute st userId voteId v).1 = CastOutcome.notEligible ↔
      ∃ u, lookupA st.users userId = some u ∧
        u.accountType = "code" ∧ u.accessCode ≠ some reservedCode) ∧
    ((createVoteRoute st now iv).1 = ProposeOutcome.notEligible ↔
      ∃ u, lookupA st.users iv.proposedBy = some u ∧
        u.accountType = "code" ∧ u.accessCode ≠ some reservedCode) := by
  constructor
  · cases hl : lookupA st.users userId with
    | none => simp [castVoteRoute, hl]
    | some u =>
      by_cases hcond : u.accountType = "code" ∧ u.accessCode ≠ some reservedCode
      · simp [castVoteRoute, hl, hcond]
      · simp only [castVoteRoute, hl]
        rw [if_neg hcond]
        constructor
        · intro h
          exfalso
          by_cases hv : hasUserVoted st userId voteId = true
          · rw [if_pos hv] at h
            exact absurd h (by simp)
          · rw [if_neg hv] at h
            revert h
            rcases castVote st userId voteId v with ⟨b, st'⟩
            cases b <;> simp
        · rintro ⟨u', hu', hc⟩
          rw [Option.some_inj] at hu'
          exact absurd (hu' ▸ hc) hcond
  · cases hl : lookupA st.users iv.proposedBy with
    | none => simp [createVoteRoute, hl]
    | some u =>
      by_cases hcond : u.accountType = "code" ∧ u.accessCode ≠ some reservedCode
      · simp [createVoteRoute, hl, hcond]
      · simp only [createVoteRoute, hl]
        rw [if_neg hcond]
        constructor
        · intro h
          exact absurd h (by simp)
        · rintro ⟨u', hu', hc⟩
          rw [Option.some_inj] at hu'
          exact absurd (hu' ▸ hc) hcond

/-!  C9: rank assignment on user creation. -/

/-- C9: `createUser` gives the very first user rank 0; with a non-empty user
store it gives the requested rank, or 10 when none is requested. -/
theorem createUser_rank_policy (st : MemStorage) (now : Nat) (cu : CreateUser) :
    (st.users = [] → (createUser st now cu).1.rank = 0) ∧
    (st.users ≠ [] → ∀ r, cu.rank = some r → (createUser st now cu).1.rank = r) ∧
    (st.users ≠ [] → cu.rank = none → (createUser st now cu).1.rank = 10) := by
  refine ⟨?_, ?_, ?_⟩
  · intro h
    simp [createUser, h]
  · intro h r hr
    simp [createUser, List.isEmpty_iff, h, hr]
  · intro h hr
    simp [createUser, List.isEmpty_iff, h, hr]

/-- A user-creation request carrying no requested rank. -/
def cuNoRank : CreateUser :=
  { username := "dora", email := "dora@x.test", passwordHash := some "h4"
    firstName := none, lastName := none, accountType := some "full"
    accessCode := none, rank := none }

/-- C9 witness: concrete runs of the three rank rules. -/
theorem createUser_rank_policy_witness :
    (createUser (initialStorage 0) 0 cuAlice).1.rank = 0 ∧
      (createUser stRegOne 1 cuLegacyBob).1.rank = 10 ∧
      (createUser stRegOne 1 cuNoRank).1.rank = 10 :=
  ⟨(createUser_rank_policy (initialStorage 0) 0 cuAlice).1 rfl,
   (createUser_rank_policy stRegOne 1 cuLegacyBob).2.1 (by decide) 10 rfl,
   (createUser_rank_policy stRegOne 1 cuNoRank).2.2 (by decide) rfl⟩

/-!  C10: casting a ballot for a proposal id absent from `activeVotes`. -/

/-- A reachable state holding a ballot for vote id 99, which has no entry in
`activeVotes`. -/
def stGhostBallot : MemStorage := (castVote (initialStorage 0) 1 99 Vote.yes).2

/-- C10 counterexample: vote id 99 has no entry in `activeVotes`, yet
`castVote` returns `false` (not `true` as claimed) because the same user
already holds a ballot for that id. -/
theorem castVote_absent_vote_can_return_false :
    lookupA stGhostBallot.activeVotes 99 = none ∧
      (castVote stGhostBallot 1 99 Vote.yes).1 = false := by
  refine ⟨by decide, by decide⟩

/-- C10 amended: when the vote id has no entry in `activeVotes` AND the user
holds no ballot for it yet, `castVote` returns `true`, appends exactly that
ballot, leaves every proposal's counters untouched, and `getVoteResults` for
the absent id reports zeroes before and after. -/
theorem castVote_absent_vote_records_ballot_only
    (st : MemStorage) (u v : Nat) (c : Vote)
    (hv : lookupA st.activeVotes v = none) (hb : hasUserVoted st u v = false) :
    (castVote st u v c).1 = true ∧
      (castVote st u v c).2.activeVotes = st.activeVotes ∧
      (castVote st u v c).2.activeVoteUsers =
        st.activeVoteUsers ++ [((u, v), { userId := u, voteId := v, vote := c })] ∧
      getVoteResults st v = (0, 0, 0) ∧
      getVoteResults (castVote st u v c).2 v = (0, 0, 0) := by
  have hbn : lookupA st.activeVoteUsers (u, v) = none := by
    cases h : lookupA st.activeVoteUsers (u, v) with
    | none => rfl
    | some x => rw [hasUserVoted, h] at hb; simp at hb
  have hks : ¬(lookupA st.activeVoteUsers (u, v)).isSome = true := by
    simp [hbn]
  unfold castVote
  rw [if_neg hks]
  simp only [hv]
  refine ⟨by simp, by simp, ?_, by simp [getVoteResults, hv], by simp [getVoteResults, hv]⟩
  exact setA_of_lookupA_none _ _ _ hbn

/-- C10 witness: a concrete first cast on the absent vote id 99. -/
theorem castVote_absent_vote_witness :
    (castVote (initialStorage 0) 1 99 Vote.yes).1 = true ∧
      getVoteResults (castVote (initialStorage 0) 1 99 Vote.yes).2 99 = (0, 0, 0) := by
  have h := castVote_absent_vote_records_ballot_only (initialStorage 0) 1 99 Vote.yes
    (by decide) (by decide)
  exact ⟨h.1, h.2.2.2.2⟩

/-!  C5: message-submission failure paths. -/

/-- A single live connection for alice. -/
def wsDemoClients : List (Nat × Client) :=
  [(1, { openConn := true, user := some aliceUser, sendOk := true })]

/-- C5 counterexample: on the WebSocket `message` path an authenticated user
submits whitespace-only content (empty after trimming); contrary to the
claim, the submission is NOT rejected: the raw content is stored and the
event is broadcast (here to connection 1). -/
theorem ws_message_path_stores_empty_content :
    (wsMessageRoute stRegOne wsDemoClients 5 (some 1) (some aliceUser) " ").1.messages ≠
        stRegOne.messages ∧
      lookupA (wsMessageRoute stRegOne wsDemoClients 5 (some 1) (some aliceUser) " ").1.messages 1 =
        some { id := 1, userId := 1, content := " ", createdAt := 5, user := aliceUser } ∧
      (wsMessageRoute stRegOne wsDemoClients 5 (some 1) (some aliceUser) " ").2 = [1] := by
  refine ⟨by decide, by decide, by decide⟩

/-- C5 amended: an identity-lookup miss is a hard error on every submission
path — `createMessage` throws, the WebSocket handler catches it and mutates
nothing and broadcasts nothing, and the REST endpoint reports a server error
with no mutation and no broadcast.  Content that is empty after trimming is
rejected with no mutation and no broadcast on the REST path only; the
WebSocket path performs no emptiness validation (see the counterexample). -/
theorem message_submission_failure_paths
    (st : MemStorage) (clients : List (Nat × Client)) (now userId : Nat)
    (content : String) (wsUser : Option User) :
    (lookupA st.users userId = none →
      (∃ e, createMessage st now userId content = Except.error e) ∧
      wsMessageRoute st clients now (some userId) wsUser content = (st, []) ∧
      (strTrim content ≠ "" →
        postMessagesRoute st clients now (some userId) content =
          (MsgOutcome.serverError, st, []))) ∧
    (strTrim content = "" →
      postMessagesRoute st clients now (some userId) content =
        (MsgOutcome.emptyContent, st, [])) := by
  constructor
  · intro hmiss
    have herr : createMessage st now userId content = Except.error userNotFoundMsg := by
      unfold createMessage
      rw [hmiss]
    have herr' : createMessage st now userId (strTrim content) = Except.error userNotFoundMsg := by
      unfold createMessage
      rw [hmiss]
    refine ⟨⟨userNotFoundMsg, herr⟩, ?_, ?_⟩
    · cases wsUser with
      | none => rfl
      | some u => simp only [wsMessageRoute, herr]
    · intro hne
      simp only [postMessagesRoute]
      rw [if_neg hne, herr']
  · intro hemp
    simp only [postMessagesRoute]
    rw [if_pos hemp]

/-- C5 witness: concrete runs of the failure paths on the empty user store. -/
theorem message_submission_failure_witness :
    (∃ e, createMessage (initialStorage 0) 3 1 "hi" = Except.error e) ∧
      wsMessageRoute (initialStorage 0) wsDemoClients 3 (some 1) (some aliceUser) "hi" =
        (initialStorage 0, []) ∧
      postMessagesRoute (initialStorage 0) wsDemoClients 3 (some 1) "hi" =
        (MsgOutcome.serverError, initialStorage 0, []) ∧
      postMessagesRoute (initialStorage 0) wsDemoClients 3 (some 1) "  " =
        (MsgOutcome.emptyContent, initialStorage 0, []) := by
  have h1 := (message_submission_failure_paths (initialStorage 0) wsDemoClients 3 1 "hi"
    (some aliceUser)).1 (by decide)
  have h2 := (message_submission_failure_paths (initialStorage 0) wsDemoClients 3 1 "  "
    (some aliceUser)).2 (by decide)
  exact ⟨h1.1, h1.2.1, h1.2.2 (by decide), h2⟩

/-!  C6: the seven-day purge sweep. -/

theorem mem_setA {κ α : Type} [BEq κ] (l : List (κ × α)) (k : κ) (v : α)
    (e : κ × α) (h : e ∈ setA l k v) : e ∈ l ∨ e = (k, v) := by
  induction l with
  | nil => simpa [setA] using h
  | cons p t ih =>
    obtain ⟨pk, pv⟩ := p
    simp only [setA] at h
    cases hpk : pk == k with
    | true =>
      rw [hpk] at h
      simp only [if_true, List.mem_cons] at h
      rcases h with h | h
      · exact Or.inr h
      · exact Or.inl (List.mem_cons_of_mem _ h)
    | false =>
      rw [hpk] at h
      simp only [Bool.false_eq_true, if_false, List.mem_cons] at h
      rcases h with h | h
      · exact Or.inl (h ▸ List.mem_cons_self _ _)
      · rcases ih h with h' | h'
        · exact Or.inl (List.mem_cons_of_mem _ h')
        · exact Or.inr h'

theorem mem_insertByCreatedAt (m x : MessageWithUser) (l : List MessageWithUser) :
    x ∈ insertByCreatedAt m l ↔ x = m ∨ x ∈ l := by
  induction l with
  | nil => simp [insertByCreatedAt]
  | cons y t ih =>
    simp only [insertByCreatedAt]
    by_cases hle : y.createdAt ≤ m.createdAt
    · rw [if_pos hle]
      simp only [List.mem_cons, ih]
      tauto
    · rw [if_neg hle]
      simp only [List.mem_cons]

theorem mem_sortByCreatedAt (x : MessageWithUser) (l : List MessageWithUser) :
    x ∈ sortByCreatedAt l ↔ x ∈ l := by
  induction l with
  | nil => simp [sortByCreatedAt]
  | cons y t ih =>
    simp only [sortByCreatedAt, mem_insertByCreatedAt, List.mem_cons, ih]

theorem mem_lastN {α : Type} (n : Nat) (l : List α) (x : α) (h : x ∈ lastN n l) : x ∈ l :=
  List.mem_of_mem_drop h

theorem cutoff_iff (c now : Nat) : c < now - retentionMs ↔ c + retentionMs < now :=
  Nat.lt_sub_iff_add_lt

/-- C6: the purge sweep (which `createMessage` runs on every submission)
removes exactly the stored messages more than 7 days old: afterwards no
stored message and no `getRecentMessages` / `getRecentMessagesByAccessCode`
result is older than 7 days, every younger stored message is kept, and the
sweep touches only the message map (users, proposals, ballots unchanged —
delivery of earlier broadcasts is an already-emitted event the sweep cannot
reach). -/
theorem purge_sweep_retention (st : MemStorage) (now : Nat) :
    (∀ e ∈ (cleanupOldMessages st now).messages, ¬(e.2.createdAt + retentionMs < now)) ∧
    (∀ e ∈ st.messages, ¬(e.2.createdAt + retentionMs < now) →
      e ∈ (cleanupOldMessages st now).messages) ∧
    ((cleanupOldMessages st now).users = st.users ∧
      (cleanupOldMessages st now).activeVotes = st.activeVotes ∧
      (cleanupOldMessages st now).activeVoteUsers = st.activeVoteUsers) ∧
    (∀ userId content msg st', createMessage st now userId content = .ok (msg, st') →
      ∀ e ∈ st'.messages, ¬(e.2.createdAt + retentionMs < now)) ∧
    (∀ limit m, m ∈ getRecentMessages (cleanupOldMessages st now) limit →
      ¬(m.createdAt + retentionMs < now)) ∧
    (∀ ac limit m, m ∈ getRecentMessagesByAccessCode (cleanupOldMessages st now) ac limit →
      ¬(m.createdAt + retentionMs < now)) := by
  have hkeep : ∀ e ∈ (cleanupOldMessages st now).messages,
      ¬(e.2.createdAt + retentionMs < now) := by
    intro e he
    rw [cleanupOldMessages] at he
    have := (List.mem_filter.mp he).2
    rw [← cutoff_iff]
    simpa using this
  refine ⟨hkeep, ?_, ⟨rfl, rfl, rfl⟩, ?_, ?_, ?_⟩
  · intro e he hyoung
    rw [cleanupOldMessages]
    refine List.mem_filter.mpr ⟨he, ?_⟩
    rw [← cutoff_iff] at hyoung
    simpa using hyoung
  · intro userId content msg st' hok e he
    unfold createMessage at hok
    cases hl : lookupA st.users userId with
    | none => rw [hl] at hok; exact absurd hok (by simp)
    | some u =>
      rw [hl] at hok
      simp only [Except.ok.injEq, Prod.mk.injEq] at hok
      obtain ⟨hmsg, hst⟩ := hok
      rw [← hst] at he
      simp only at he
      rcases mem_setA _ _ _ _ he with h' | h'
      · exact hkeep e h'
      · rw [h']
        show ¬(now + retentionMs < now)
        exact Nat.not_lt.mpr (Nat.le_add_right now retentionMs)
  · intro limit m hm
    have h1 := mem_lastN _ _ _ hm
    rw [mem_sortByCreatedAt] at h1
    rcases List.mem_map.mp h1 with ⟨e, he, rfl⟩
    exact hkeep e he
  · intro ac limit m hm
    have h1 := mem_lastN _ _ _ hm
    rw [mem_sortByCreatedAt] at h1
    have h2 := (List.mem_filter.mp h1).1
    rcases List.mem_map.mp h2 with ⟨e, he, rfl⟩
    exact hkeep e he

/-- A message at the dawn of time, purged once `now` passes the window. -/
def oldMsg : MessageWithUser :=
  { id := 1, userId := 1, content := "old", createdAt := 0, user := aliceUser }

/-- A message inside the retention window at `now = retentionMs + 1`. -/
def newMsg : MessageWithUser :=
  { id := 2, userId := 1, content := "new", createdAt := 10, user := aliceUser }

def stMsgs : MemStorage :=
  { stRegOne with messages := [(1, oldMsg), (2, newMsg)], currentMessageId := 3 }

/-- C6 witness: at `now = retentionMs + 1` the sweep keeps the young message
and the purged store carries no over-age message. -/
theorem purge_sweep_retention_witness :
    (2, newMsg) ∈ (cleanupOldMessages stMsgs (retentionMs + 1)).messages ∧
      ¬((2, newMsg).2.createdAt + retentionMs < retentionMs + 1) := by
  have h := purge_sweep_retention stMsgs (retentionMs + 1)
  have hmem := h.2.1 (2, newMsg) (by decide) (by decide)
  exact ⟨hmem, h.1 (2, newMsg) hmem⟩

/-!  C3 / C4: the ballot ledger and the proposal counters. -/

theorem votes_keys_lt_step (st : MemStorage) (op : Op)
    (ih : ∀ k, (lookupA st.activeVotes k).isSome → k < st.currentVoteId) :
    ∀ k, (lookupA (applyOp st op).activeVotes k).isSome →
      k < (applyOp st op).currentVoteId := by
  cases op with
  | opCreateUser now cu => exact ih
  | opUpdateRank userId newRank =>
    simp only [applyOp, updateUserRank]
    cases lookupA st.users userId <;> exact ih
  | opUpdateAccessCode userId code =>
    simp only [applyOp, updateUserAccessCode]
    cases lookupA st.users userId <;> exact ih
  | opSetOnline userId b =>
    simp only [applyOp, setUserOnlineStatus]
    cases lookupA st.users userId <;> exact ih
  | opCreateMessage now userId content =>
    simp only [applyOp, createMessage]
    cases lookupA st.users userId <;> exact ih
  | opCleanup now => exact ih
  | opCreateVote now iv =>
    intro k hk
    simp only [applyOp, createActiveVote] at hk ⊢
    rw [lookupA_setA] at hk
    cases hkk : st.currentVoteId == k with
    | true =>
      have : st.currentVoteId = k := eq_of_beq hkk
      omega
    | false =>
      rw [hkk] at hk
      simp only [Bool.false_eq_true, if_false] at hk
      exact Nat.lt_succ_of_lt (ih k hk)
  | opCastVote u v c =>
    intro k hk
    simp only [applyOp, castVote] at hk ⊢
    by_cases hdup : (lookupA st.activeVoteUsers (u, v)).isSome = true
    · rw [if_pos hdup] at hk ⊢
      exact ih k hk
    · rw [if_neg hdup] at hk ⊢
      cases hl : lookupA st.activeVotes v with
      | none =>
        rw [hl] at hk
        exact ih k hk
      | some av =>
        rw [hl] at hk
        simp only at hk
        rw [lookupA_setA] at hk
        cases hvk : v == k with
        | true =>
          have hveq : v = k := eq_of_beq hvk
          exact ih k (by rw [← hveq]; simp [hl])
        | false =>
          rw [hvk] at hk
          simp only [Bool.false_eq_true, if_false] at hk
          exact ih k hk

/-- Every reachable store keeps all proposal ids below the id counter, so a
freshly created proposal never collides with an existing one. -/
theorem reach_votes_keys_lt (st : MemStorage) (h : Reach st) :
    ∀ k, (lookupA st.activeVotes k).isSome → k < st.currentVoteId := by
  induction h with
  | init now =>
    intro k hk
    simp only [initialStorage] at hk ⊢
    rw [lookupA_cons] at hk
    cases h1 : (1 : Nat) == k with
    | true => have := eq_of_beq h1; omega
    | false =>
      rw [h1] at hk
      simp [lookupA] at hk
  | step op hst ih => exact votes_keys_lt_step _ op ih

theorem counts_mono_step (st : MemStorage) (op : Op)
    (hkeys : ∀ k, (lookupA st.activeVotes k).isSome → k < st.currentVoteId)
    (k : Nat) (av : ActiveVote) (hl : lookupA st.activeVotes k = some av) :
    ∃ av', lookupA (applyOp st op).activeVotes k = some av' ∧
      av.yesVotes ≤ av'.yesVotes ∧ av.noVotes ≤ av'.noVotes := by
  cases op with
  | opCreateUser now cu => exact ⟨av, hl, Nat.le_refl _, Nat.le_refl _⟩
  | opUpdateRank userId newRank =>
    simp only [applyOp, updateUserRank]
    cases lookupA st.users userId <;> exact ⟨av, hl, Nat.le_refl _, Nat.le_refl _⟩
  | opUpdateAccessCode userId code =>
    simp only [applyOp, updateUserAccessCode]
    cases lookupA st.users userId <;> exact ⟨av, hl, Nat.le_refl _, Nat.le_refl _⟩
  | opSetOnline userId b =>
    simp only [applyOp, setUserOnlineStatus]
    cases lookupA st.users userId <;> exact ⟨av, hl, Nat.le_refl _, Nat.le_refl _⟩
  | opCreateMessage now userId content =>
    simp only [applyOp, createMessage]
    cases lookupA st.users userId <;> exact ⟨av, hl, Nat.le_refl _, Nat.le_refl _⟩
  | opCleanup now => exact ⟨av, hl, Nat.le_refl _, Nat.le_refl _⟩
  | opCreateVote now iv =>
    have hcv : k < st.currentVoteId := hkeys k (by simp [hl])
    have hne : (st.currentVoteId == k) = false := by
      refine beq_eq_false_iff_ne.mpr ?_
      omega
    simp only [applyOp, createActiveVote]
    rw [lookupA_setA, hne]
    simp only [Bool.false_eq_true, if_false]
    exact ⟨av, hl, Nat.le_refl _, Nat.le_refl _⟩
  | opCastVote u v c =>
    simp only [applyOp, castVote]
    by_cases hdup : (lookupA st.activeVoteUsers (u, v)).isSome = true
    · rw [if_pos hdup]
      exact ⟨av, hl, Nat.le_refl _, Nat.le_refl _⟩
    · rw [if_neg hdup]
      cases hlv : lookupA st.activeVotes v with
      | none =>
        simp only
        exact ⟨av, hl, Nat.le_refl _, Nat.le_refl _⟩
      | some av0 =>
        simp only
        rw [lookupA_setA]
        cases hvk : v == k with
        | true =>
          have hveq : v = k := eq_of_beq hvk
          subst hveq
          rw [hl] at hlv
          injection hlv with hav
          subst hav
          refine ⟨_, rfl, ?_, ?_⟩
          · cases c <;> simp
          · cases c <;> simp
        | false =>
          exact ⟨av, hl, Nat.le_refl _, Nat.le_refl _⟩

theorem castVote_dup (st : MemStorage) (u v : Nat) (c : Vote)
    (hb : hasUserVoted st u v = true) : castVote st u v c = (false, st) := by
  have hb' : (lookupA st.activeVoteUsers (u, v)).isSome = true := hb
  unfold castVote
  rw [if_pos hb']

theorem castVote_result_hasVoted (st : MemStorage) (u v : Nat) (c : Vote) :
    hasUserVoted (castVote st u v c).2 u v = true := by
  unfold castVote
  by_cases hdup : (lookupA st.activeVoteUsers (u, v)).isSome = true
  · rw [if_pos hdup]
    exact hdup
  · rw [if_neg hdup]
    cases hlv : lookupA st.activeVotes v with
    | none => simp [hasUserVoted, lookupA_setA, hlv]
    | some av => simp [hasUserVoted, lookupA_setA, hlv]

theorem hasUserVoted_mono (st : MemStorage) (op : Op) (u v : Nat)
    (h : hasUserVoted st u v = true) : hasUserVoted (applyOp st op) u v = true := by
  cases op with
  | opCreateUser now cu => exact h
  | opUpdateRank userId newRank =>
    simp only [applyOp, updateUserRank]
    cases lookupA st.users userId <;> exact h
  | opUpdateAccessCode userId code =>
    simp only [applyOp, updateUserAccessCode]
    cases lookupA st.users userId <;> exact h
  | opSetOnline userId b =>
    simp only [applyOp, setUserOnlineStatus]
    cases lookupA st.users userId <;> exact h
  | opCreateMessage now userId content =>
    simp only [applyOp, createMessage]
    cases lookupA st.users userId <;> exact h
  | opCleanup now => exact h
  | opCreateVote now iv => exact h
  | opCastVote u' v' c =>
    simp only [applyOp, castVote]
    by_cases hdup : (lookupA st.activeVoteUsers (u', v')).isSome = true
    · rw [if_pos hdup]
      exact h
    · rw [if_neg hdup]
      split
      · exact lookupA_isSome_setA _ _ _ _ h
      · exact lookupA_isSome_setA _ _ _ _ h

theorem reachFrom_hasVoted (st st₂ : MemStorage) (h : ReachFrom st st₂) (u v : Nat)
    (hv : hasUserVoted st u v = true) : hasUserVoted st₂ u v = true := by
  induction h with
  | refl => exact hv
  | tail hab hbc ih =>
    obtain ⟨op, rfl⟩ := hbc
    exact hasUserVoted_mono _ op u v ih

theorem castVoteRoute_alreadyVoted (st : MemStorage) (u v : Nat) (c : Vote) (usr : User)
    (hl : lookupA st.users u = some usr)
    (helig : ¬(usr.accountType = "code" ∧ usr.accessCode ≠ some reservedCode))
    (hv : hasUserVoted st u v = true) :
    castVoteRoute st u v c = (CastOutcome.alreadyVotedErr, st) := by
  unfold castVoteRoute
  rw [hl]
  simp only
  rw [if_neg helig, if_pos hv]

theorem castVote_fresh_counting (st : MemStorage) (u v : Nat) (c : Vote) (av : ActiveVote)
    (hb : hasUserVoted st u v = false) (hl : lookupA st.activeVotes v = some av) :
    (castVote st u v c).1 = true ∧
      voteSum (castVote st u v c).2 v = voteSum st v + 1 ∧
      ballotCount (castVote st u v c).2 v = ballotCount st v + 1 ∧
      (∀ w, w ≠ v → voteSum (castVote st u v c).2 w = voteSum st w ∧
        ballotCount (castVote st u v c).2 w = ballotCount st w) := by
  have hbn : lookupA st.activeVoteUsers (u, v) = none := by
    cases hx : lookupA st.activeVoteUsers (u, v) with
    | none => rfl
    | some x => rw [hasUserVoted, hx] at hb; simp at hb
  have hks : ¬(lookupA st.activeVoteUsers (u, v)).isSome = true := by simp [hbn]
  have happ := setA_of_lookupA_none st.activeVoteUsers (u, v)
    { userId := u, voteId := v, vote := c } hbn
  unfold castVote
  rw [if_neg hks]
  simp only [hl]
  refine ⟨by simp, ?_, ?_, ?_⟩
  · cases c <;> simp [voteSum, lookupA_setA, hl] <;> omega
  · simp [ballotCount, happ, List.filter_append]
  · intro w hw
    have hvw : (v == w) = false := beq_eq_false_iff_ne.mpr (fun hh => hw hh.symm)
    constructor
    · simp [voteSum, lookupA_setA, hvw]
    · have hxw : (v == w) = false := hvw
      simp [ballotCount, happ, List.filter_append, hxw]

/-- C3 counterexample: the freshly initialized store is reachable, and its
seeded proposal (id 1) has `yesVotes + noVotes = 12` while zero ballots are
recorded for it — the claimed equality fails at a reachable state. -/
theorem seeded_counts_disagree_with_ballots :
    Reach (initialStorage 0) ∧ voteSum (initialStorage 0) 1 = 12 ∧
      ballotCount (initialStorage 0) 1 = 0 :=
  ⟨Reach.init 0, by decide, by decide⟩

/-- C3 amended: at every reachable store, no operation ever decreases any
proposal's `yesVotes` or `noVotes`; a successful cast on an existing
proposal increases its `yesVotes + noVotes` by exactly one and its recorded
ballot count by exactly one, leaving every other proposal's counters and
ballots untouched, and a duplicate cast changes nothing — so
`yesVotes + noVotes` always equals the ballots recorded for the proposal
while it existed plus its creation-time counters.  The plain equality of
counts and ballots fails at the initial state (see the counterexample):
the seeded sample proposal starts at 8 + 4 with an empty ballot ledger. -/
theorem vote_counts_monotone_and_cast_counting (st : MemStorage) (h : Reach st) :
    (∀ op k av, lookupA st.activeVotes k = some av →
      ∃ av', lookupA (applyOp st op).activeVotes k = some av' ∧
        av.yesVotes ≤ av'.yesVotes ∧ av.noVotes ≤ av'.noVotes) ∧
    (∀ u v c av, hasUserVoted st u v = false → lookupA st.activeVotes v = some av →
      (castVote st u v c).1 = true ∧
      voteSum (castVote st u v c).2 v = voteSum st v + 1 ∧
      ballotCount (castVote st u v c).2 v = ballotCount st v + 1 ∧
      (∀ w, w ≠ v → voteSum (castVote st u v c).2 w = voteSum st w ∧
        ballotCount (castVote st u v c).2 w = ballotCount st w)) ∧
    (∀ u v c, hasUserVoted st u v = true → castVote st u v c = (false, st)) :=
  ⟨fun op k av hl => counts_mono_step st op (reach_votes_keys_lt st h) k av hl,
   fun u v c av hb hl => castVote_fresh_counting st u v c av hb hl,
   fun u v c hb => castVote_dup st u v c hb⟩

/-- C3 witness: concrete monotone step and counting step on the seeded
store. -/
theorem vote_counts_witness :
    (∃ av', lookupA (applyOp (initialStorage 0) (Op.opCastVote 1 1 Vote.yes)).activeVotes 1 =
        some av' ∧ (sampleVote 0).yesVotes ≤ av'.yesVotes ∧
        (sampleVote 0).noVotes ≤ av'.noVotes) ∧
      voteSum (castVote (initialStorage 0) 1 1 Vote.yes).2 1 =
        voteSum (initialStorage 0) 1 + 1 ∧
      ballotCount (castVote (initialStorage 0) 1 1 Vote.yes).2 1 =
        ballotCount (initialStorage 0) 1 + 1 := by
  have h := vote_counts_monotone_and_cast_counting (initialStorage 0) (Reach.init 0)
  have h2 := h.2.1 1 1 Vote.yes (sampleVote 0) (by decide) (by decide)
  exact ⟨h.1 (Op.opCastVote 1 1 Vote.yes) 1 (sampleVote 0) (by decide), h2.2.1, h2.2.2.1⟩

/-- C4: once a cast by user `u` on proposal `v` has succeeded, every later
cast by `u` on `v` — in the resulting state or after any further sequence of
operations — returns `false` and leaves the entire store (ballot ledger and
both counters included) unchanged, and the cast endpoint rejects it as
already-voted for any stored, eligible `u`. -/
theorem duplicate_cast_rejected_and_immutable (st : MemStorage) (u v : Nat) (c : Vote)
    (_hfirst : (castVote st u v c).1 = true) :
    ∀ st₂, ReachFrom (castVote st u v c).2 st₂ →
      (∀ c', castVote st₂ u v c' = (false, st₂)) ∧
      (∀ usr c', lookupA st₂.users u = some usr →
        ¬(usr.accountType = "code" ∧ usr.accessCode ≠ some reservedCode) →
        castVoteRoute st₂ u v c' = (CastOutcome.alreadyVotedErr, st₂)) := by
  intro st₂ hreach
  have hvoted : hasUserVoted st₂ u v = true :=
    reachFrom_hasVoted _ _ hreach u v (castVote_result_hasVoted st u v c)
  exact ⟨fun c' => castVote_dup st₂ u v c' hvoted,
    fun usr c' hl helig => castVoteRoute_alreadyVoted st₂ u v c' usr hl helig hvoted⟩

/-- The state right after alice's successful cast on the seeded proposal. -/
def castOnceState : MemStorage := (castVote stRegOne 1 1 Vote.yes).2

/-- C4 witness: alice's second cast is rejected with no mutation, at both
the storage and the endpoint level. -/
theorem duplicate_cast_witness :
    castVote castOnceState 1 1 Vote.no = (false, castOnceState) ∧
      castVoteRoute castOnceState 1 1 Vote.no =
        (CastOutcome.alreadyVotedErr, castOnceState) := by
  have h := duplicate_cast_rejected_and_immutable stRegOne 1 1 Vote.yes (by decide)
    castOnceState Relation.ReflTransGen.refl
  exact ⟨h.1 Vote.no, h.2 aliceUser Vote.no (by decide) (by decide)⟩

end CdlChat
